import Mathlib

/-!
Verification development for the `ask` CLI (Go repository).

Shallow embedding conventions:
* Go strings and byte slices are modelled as `List Char` (all payloads the
  program handles are ASCII or UTF-8 text; byte indices coincide with char
  indices for the ASCII markers the code compares against).
* The network is abstracted: an HTTP streaming response is a status code, a
  raw error body and the list of byte chunks (respectively text lines) that
  the program reads; the pure parsing/assembly logic is translated verbatim
  from the Go source.
* `encoding/json.Unmarshal` into the provider event structs is modelled by a
  small executable JSON parser plus field extraction following Go semantics:
  missing fields and `null` leave zero values, type mismatches are errors,
  trailing non-whitespace input is an error, duplicate/case-folded keys are
  resolved like Go does (last matching key wins, ASCII case folding).
-/

/-- Conversation message, from `provider.Message` (role, content). -/
structure Message where
  role : String
  content : String
deriving DecidableEq, Repr

/-- Model descriptor, from `provider.ModelInfo`. -/
structure ModelInfo where
  id : String
  name : String
  description : String
deriving DecidableEq, Repr

/-! ## JSON values and parser (model of `encoding/json` as used by the stream parsers) -/

/-- A parsed JSON value.  Numeric literals carry no payload because the
stream structs never read a numeric field (`index` is ignored by the code). -/
inductive JVal where
  | jnull
  | jbool (b : Bool)
  | jnum
  | jstr (s : List Char)
  | jarr (items : List JVal)
  | jobj (fields : List (List Char × JVal))

/-- JSON insignificant whitespace. -/
def jsonWs (c : Char) : Bool :=
  c = ' ' || c = '\t' || c = '\n' || c = '\r'

/-- Skip leading JSON whitespace. -/
def skipWs : List Char → List Char
  | [] => []
  | c :: cs => if jsonWs c then skipWs cs else c :: cs

/-- Value of one hexadecimal digit (working on the code point). -/
def hexDigitVal (c : Char) : Option Nat :=
  let n := c.toNat
  if 48 ≤ n && n ≤ 57 then some (n - 48)
  else if 97 ≤ n && n ≤ 102 then some (n - 87)
  else if 65 ≤ n && n ≤ 70 then some (n - 55)
  else none

/-- Value of a four-hex-digit escape sequence. -/
def hexQuad (a b c d : Char) : Option Nat :=
  match hexDigitVal a, hexDigitVal b, hexDigitVal c, hexDigitVal d with
  | some wa, some wb, some wc, some wd => some (wa * 4096 + wb * 256 + wc * 16 + wd)
  | _, _, _, _ => none

/-- Decode the body of a JSON string literal (after the opening quote),
with Go's escape handling: standard escapes, `\uXXXX`, surrogate pairs
combined, lone surrogates replaced by U+FFFD, raw control characters
rejected.  Fueled; every recursive call consumes at least one character,
so fuel `length + 1` always suffices. -/
def parseStrBody : Nat → List Char → Option (List Char × List Char)
  | 0, _ => none
  | _ + 1, [] => none
  | fuel + 1, c :: rest =>
    if c = '"' then
      some ([], rest)
    else if c = '\\' then
      match rest with
      | [] => none
      | e :: rest2 =>
        if e = '"' ∨ e = '\\' ∨ e = '/' then
          (parseStrBody fuel rest2).map (fun p => (e :: p.1, p.2))
        else if e = 'b' then
          (parseStrBody fuel rest2).map (fun p => ('\x08' :: p.1, p.2))
        else if e = 'f' then
          (parseStrBody fuel rest2).map (fun p => ('\x0c' :: p.1, p.2))
        else if e = 'n' then
          (parseStrBody fuel rest2).map (fun p => ('\n' :: p.1, p.2))
        else if e = 'r' then
          (parseStrBody fuel rest2).map (fun p => ('\r' :: p.1, p.2))
        else if e = 't' then
          (parseStrBody fuel rest2).map (fun p => ('\t' :: p.1, p.2))
        else if e = 'u' then
          match rest2 with
          | h1 :: h2 :: h3 :: h4 :: rest3 =>
            match hexQuad h1 h2 h3 h4 with
            | none => none
            | some n =>
              if 0xD800 ≤ n ∧ n ≤ 0xDBFF then
                -- high surrogate: look for a following low surrogate escape
                match rest3 with
                | '\\' :: 'u' :: g1 :: g2 :: g3 :: g4 :: rest4 =>
                  match hexQuad g1 g2 g3 g4 with
                  | some m =>
                    if 0xDC00 ≤ m ∧ m ≤ 0xDFFF then
                      let code := 0x10000 + (n - 0xD800) * 0x400 + (m - 0xDC00)
                      (parseStrBody fuel rest4).map (fun p => (Char.ofNat code :: p.1, p.2))
                    else
                      (parseStrBody fuel rest3).map (fun p => ('\ufffd' :: p.1, p.2))
                  | none =>
                    (parseStrBody fuel rest3).map (fun p => ('\ufffd' :: p.1, p.2))
                | _ =>
                  (parseStrBody fuel rest3).map (fun p => ('\ufffd' :: p.1, p.2))
              else if 0xDC00 ≤ n ∧ n ≤ 0xDFFF then
                (parseStrBody fuel rest3).map (fun p => ('\ufffd' :: p.1, p.2))
              else
                (parseStrBody fuel rest3).map (fun p => (Char.ofNat n :: p.1, p.2))
          | _ => none
        else none
    else if c.toNat < 0x20 then none
    else
      (parseStrBody fuel rest).map (fun p => (c :: p.1, p.2))

/-- Drop leading decimal digits. -/
def dropDigits : List Char → List Char
  | [] => []
  | c :: cs => if c.isDigit then dropDigits cs else c :: cs

/-- Integer part of a JSON number: `0`, or a nonzero digit followed by digits. -/
def parseIntPart : List Char → Option (List Char)
  | [] => none
  | c :: rest =>
    if c = '0' then
      match rest with
      | d :: _ => if d.isDigit then none else some rest
      | [] => some []
    else if c.isDigit then some (dropDigits rest)
    else none

/-- Optional fraction part of a JSON number. -/
def parseFracPart : List Char → Option (List Char)
  | '.' :: rest =>
    match rest with
    | d :: r => if d.isDigit then some (dropDigits r) else none
    | [] => none
  | l => some l

/-- Optional exponent part of a JSON number. -/
def parseExpPart (l : List Char) : Option (List Char) :=
  match l with
  | e :: rest =>
    if e = 'e' ∨ e = 'E' then
      let rest2 := match rest with
        | s :: r => if s = '+' ∨ s = '-' then r else s :: r
        | [] => []
      match rest2 with
      | d :: r => if d.isDigit then some (dropDigits r) else none
      | [] => none
    else some l
  | [] => some l

/-- Lex a JSON numeric literal (value discarded; only validity matters). -/
def parseNum (l : List Char) : Option (JVal × List Char) :=
  let l1 := match l with
    | '-' :: r => r
    | _ => l
  match parseIntPart l1 with
  | none => none
  | some l2 =>
    match parseFracPart l2 with
    | none => none
    | some l3 =>
      match parseExpPart l3 with
      | none => none
      | some l4 => some (.jnum, l4)

mutual

/-- Parse one JSON value.  Fueled on value nesting; each nested call is made
only after at least one character has been consumed, so fuel `length + 1`
always suffices. -/
def parseVal : Nat → List Char → Option (JVal × List Char)
  | 0, _ => none
  | fuel + 1, l =>
    match skipWs l with
    | 'n' :: 'u' :: 'l' :: 'l' :: rest => some (.jnull, rest)
    | 't' :: 'r' :: 'u' :: 'e' :: rest => some (.jbool true, rest)
    | 'f' :: 'a' :: 'l' :: 's' :: 'e' :: rest => some (.jbool false, rest)
    | '"' :: rest => (parseStrBody (rest.length + 1) rest).map (fun p => (.jstr p.1, p.2))
    | '[' :: rest =>
      (match skipWs rest with
       | ']' :: r2 => some (.jarr [], r2)
       | _ => parseItems fuel (skipWs rest) [])
    | '\x7b' :: rest =>
      (match skipWs rest with
       | '\x7d' :: r2 => some (.jobj [], r2)
       | _ => parseFields fuel (skipWs rest) [])
    | c :: rest =>
      if c = '-' ∨ c.isDigit then parseNum (c :: rest) else none
    | [] => none

/-- Parse the elements of a non-empty JSON array (accumulator reversed). -/
def parseItems : Nat → List Char → List JVal → Option (JVal × List Char)
  | 0, _, _ => none
  | fuel + 1, l, acc =>
    match parseVal fuel l with
    | none => none
    | some (v, r) =>
      match skipWs r with
      | ',' :: r2 => parseItems fuel r2 (v :: acc)
      | ']' :: r2 => some (.jarr (v :: acc).reverse, r2)
      | _ => none

/-- Parse the members of a non-empty JSON object (accumulator reversed). -/
def parseFields : Nat → List Char → List (List Char × JVal) →
    Option (JVal × List Char)
  | 0, _, _ => none
  | fuel + 1, l, acc =>
    match skipWs l with
    | '"' :: rest =>
      match parseStrBody (rest.length + 1) rest with
      | none => none
      | some (k, r) =>
        match skipWs r with
        | ':' :: r2 =>
          match parseVal fuel r2 with
          | none => none
          | some (v, r3) =>
            match skipWs r3 with
            | ',' :: r4 => parseFields fuel r4 ((k, v) :: acc)
            | '\x7d' :: r4 => some (.jobj ((k, v) :: acc).reverse, r4)
            | _ => none
        | _ => none
    | _ => none

end

/-- Parse a complete JSON document, as `json.Unmarshal` does: one value,
optionally surrounded by whitespace, nothing else. -/
def parseJSON (l : List Char) : Option JVal :=
  match parseVal (l.length + 1) l with
  | some (v, rest) => if skipWs rest = [] then some v else none
  | none => none

/-! ## Unmarshalling into the provider stream structs -/

/-- Look up an object key the way `encoding/json` binds keys to struct
fields: keys are compared case-insensitively (the structs here have no
ambiguous fields) and a later duplicate key overwrites an earlier one. -/
def jlookup (fields : List (List Char × JVal)) (name : List Char) : Option JVal :=
  fields.foldl
    (fun acc kv => if kv.1.map Char.toLower = name.map Char.toLower then some kv.2 else acc)
    none

/-- Read a JSON field into a Go `string` field: missing field or `null`
leaves the zero value, a string is taken verbatim, anything else is an
unmarshalling error. -/
def jvalAsStr : Option JVal → Option (List Char)
  | none => some []
  | some .jnull => some []
  | some (.jstr s) => some s
  | some _ => none

/-- Check a JSON field against a Go `int` field (the value itself is unused
by the code): missing, `null` or a number is fine, anything else errors. -/
def jvalIntOk : Option JVal → Bool
  | none => true
  | some .jnull => true
  | some .jnum => true
  | some _ => false

/-- `claudeStreamEvent.Delta` (fields `type`, `text`). -/
structure ClaudeDelta where
  dtype : List Char
  dtext : List Char
deriving DecidableEq, Repr

/-- `claudeStreamEvent` (fields `type`, `index`, `delta`). -/
structure ClaudeEvent where
  etype : List Char
  delta : ClaudeDelta
deriving DecidableEq, Repr

/-- `json.Unmarshal(data, &claudeStreamEvent)`:  `none` models a non-nil
error (the line is then skipped by the stream loop). -/
def decodeClaudeEvent (data : List Char) : Option ClaudeEvent :=
  match parseJSON data with
  | some .jnull => some ⟨[], ⟨[], []⟩⟩
  | some (.jobj fs) => do
    let t ← jvalAsStr (jlookup fs "type".data)
    if jvalIntOk (jlookup fs "index".data) then
      match jlookup fs "delta".data with
      | none => some ⟨t, ⟨[], []⟩⟩
      | some .jnull => some ⟨t, ⟨[], []⟩⟩
      | some (.jobj dfs) => do
        let dt ← jvalAsStr (jlookup dfs "type".data)
        let dx ← jvalAsStr (jlookup dfs "text".data)
        some ⟨t, ⟨dt, dx⟩⟩
      | some _ => none
    else none
  | _ => none

/-- `deepseekStreamResponse.Choices[i].Delta` (field `content`). -/
structure DSDelta where
  dcontent : List Char
deriving DecidableEq, Repr

/-- One element of `deepseekStreamResponse.Choices`. -/
structure DSChoice where
  delta : DSDelta
deriving DecidableEq, Repr

/-- `deepseekStreamResponse` (field `choices`). -/
structure DSResp where
  choices : List DSChoice
deriving DecidableEq, Repr

/-- Unmarshal one element of the `choices` array. -/
def decodeDSChoice : JVal → Option DSChoice
  | .jnull => some ⟨⟨[]⟩⟩
  | .jobj fs =>
    match jlookup fs "delta".data with
    | none => some ⟨⟨[]⟩⟩
    | some .jnull => some ⟨⟨[]⟩⟩
    | some (.jobj dfs) => (jvalAsStr (jlookup dfs "content".data)).map (fun c => ⟨⟨c⟩⟩)
    | some _ => none
  | _ => none

/-- `json.Unmarshal(data, &deepseekStreamResponse)`. -/
def decodeDSResp (data : List Char) : Option DSResp :=
  match parseJSON data with
  | some .jnull => some ⟨[]⟩
  | some (.jobj fs) =>
    match jlookup fs "choices".data with
    | none => some ⟨[]⟩
    | some .jnull => some ⟨[]⟩
    | some (.jarr items) => (items.mapM decodeDSChoice).map DSResp.mk
    | some _ => none
  | _ => none

/-! ## Per-line fragment extraction (stream parsers) -/

/-- The SSE data marker `"data: "`. -/
def dataMark : List Char := "data: ".data

/-- The termination sentinel payload `"[DONE]"`. -/
def doneTok : List Char := "[DONE]".data

/-- Claude per-payload emission decision (`claude.go`): unmarshal, then
emit `event.Delta.Text` when `event.Type == "content_block_delta"` and the
text is non-empty; unmarshalling errors skip the line. -/
def claudeFragOf (data : List Char) : Option (List Char) :=
  match decodeClaudeEvent data with
  | some ev =>
    if ev.etype = "content_block_delta".data ∧ ev.delta.dtext ≠ [] then
      some ev.delta.dtext
    else none
  | none => none

/-- Claude per-line handling: only `"data: "`-prefixed lines are considered,
the `"[DONE]"` payload is passed over (`continue`), other payloads go
through `claudeFragOf`. -/
def claudeLineFrag (line : List Char) : Option (List Char) :=
  if dataMark.isPrefixOf line then
    if line.drop dataMark.length = doneTok then none
    else claudeFragOf (line.drop dataMark.length)
  else none

/-- Split on a separator character, exactly like Go `strings.Split` with a
one-character separator (`strings.Split "a\nb\n" "\n" = ["a","b",""]`). -/
def splitOnChar (sep : Char) : List Char → List (List Char)
  | [] => [[]]
  | c :: cs =>
    if c = sep then [] :: splitOnChar sep cs
    else
      match splitOnChar sep cs with
      | [] => [[c]]
      | p :: ps => (c :: p) :: ps

/-- The fragments the Claude SSE loop emits for one list of lines. -/
def claudeProcessLines (lines : List (List Char)) : List (List Char) :=
  lines.filterMap claudeLineFrag

/-- `claude.go` processes each read chunk in isolation: the chunk is split
on newlines and every resulting line is handled; no partial-line state is
carried over to the next chunk. -/
def claudeProcessChunk (chunk : List Char) : List (List Char) :=
  claudeProcessLines (splitOnChar '\n' chunk)

/-- Fragments emitted by `ClaudeProvider.QueryStreamWithHistory`'s read
loop for a given sequence of `resp.Body.Read` chunks. -/
def claudeProcessChunks (chunks : List (List Char)) : List (List Char) :=
  (chunks.map claudeProcessChunk).flatten

/-- DeepSeek per-payload emission decision (`deepseek.go`): unmarshal, then
emit `Choices[0].Delta.Content` when the choices are non-empty and the
content is non-empty; unmarshalling errors skip the line. -/
def dsFragOf (data : List Char) : Option (List Char) :=
  match decodeDSResp data with
  | some r =>
    match r.choices with
    | c :: _ => if c.delta.dcontent ≠ [] then some c.delta.dcontent else none
    | [] => none
  | none => none

/-- The fragments the DeepSeek scanner loop emits: lines without the
`"data: "` marker are skipped, the `"[DONE]"` payload breaks out of the
loop, other payloads go through `dsFragOf`. -/
def deepseekProcessLines : List (List Char) → List (List Char)
  | [] => []
  | line :: rest =>
    if dataMark.isPrefixOf line then
      if line.drop dataMark.length = doneTok then []
      else
        match dsFragOf (line.drop dataMark.length) with
        | some f => f :: deepseekProcessLines rest
        | none => deepseekProcessLines rest
    else deepseekProcessLines rest

/-! ## HTTP status handling and the streaming calls -/

/-- `provider.HandleAPIError`: status classification used by the Claude
provider. -/
def handleAPIError (status : Nat) (body : String) (name : String) : String :=
  if status = 401 then
    "[!] Invalid API key for " ++ name ++ ". Check your config.yaml"
  else if status = 402 then
    "[!] Insufficient balance/credits for " ++ name ++ ". Please add funds to your account"
  else if status = 429 then
    "[!] Rate limit exceeded for " ++ name ++ ". Please wait and try again"
  else
    "API error (status " ++ toString status ++ "): " ++ body

/-- The generic error text DeepSeek (and ChatGPT) build for every non-OK
status (`deepseek.go` line 155). -/
def genericAPIError (status : Nat) (body : String) : String :=
  "API error (status " ++ toString status ++ "): " ++ body

/-- `ClaudeProvider.QueryStreamWithHistory`, abstracted over the HTTP
response: a non-OK status is classified by `HandleAPIError` and returned
before any parsing; otherwise the chunk loop runs to completion.  Result:
(fragments written to the writer, error). -/
def claudeQueryRun (status : Nat) (body : String) (chunks : List (List Char)) :
    List (List Char) × Option String :=
  if status ≠ 200 then ([], some (handleAPIError status body "Claude"))
  else (claudeProcessChunks chunks, none)

/-- `DeepSeekProvider.QueryStreamWithHistory`, abstracted over the HTTP
response (the scanner's already-split lines).  A non-OK status yields the
generic error before any parsing. -/
def deepseekQueryRun (status : Nat) (body : String) (lines : List (List Char)) :
    List (List Char) × Option String :=
  if status ≠ 200 then ([], some (genericAPIError status body))
  else (deepseekProcessLines lines, none)

/-! ## Session engine, blocking (REPL) form: one turn (`session.go` loop body) -/

/-- One non-command turn of `RunSessionREPL` (`session.go` lines 101-139),
abstracted over the outcome of `queryWithSpinner`: the user message is
appended (and a snapshot copied for the call); on error the just-appended
message is removed again (guarded by a non-emptiness check); on success the
assistant reply is appended. -/
def replTurn (history : List Message) (input : String)
    (outcome : Except String String) : List Message :=
  let withUser := history ++ [⟨"user", input⟩]
  match outcome with
  | .error _ => if withUser.length > 0 then withUser.dropLast else withUser
  | .ok resp => withUser ++ [⟨"assistant", resp⟩]

/-! ## Go string helpers (kernel-reducible models of `strings` functions) -/

/-- `strings.TrimSpace` (whitespace per `Char.isWhitespace`). -/
def trimSpace (s : List Char) : List Char :=
  ((s.dropWhile Char.isWhitespace).reverse.dropWhile Char.isWhitespace).reverse

/-- `strings.TrimSpace` on `String`. -/
def goTrim (s : String) : String := String.mk (trimSpace s.data)

/-- `strings.ToLower` on `String` (ASCII case folding suffices for the
command strings compared against). -/
def goLower (s : String) : String := String.mk (s.data.map Char.toLower)

/-- `strings.HasPrefix`. -/
def goHasPrefix (s marker : String) : Bool := marker.data.isPrefixOf s.data

/-! ## Session engine, event-loop (TUI) form -/

/-- Commands an `Update` step can hand back to the event loop (only the
aspects the claims observe: no command, quit, or a started provider query). -/
inductive TuiCmd where
  | noCmd
  | quit
  | runQuery (input : String)
deriving DecidableEq, Repr

/-- The buffered TUI model (`session_tui.go`, spinner variant): the fields
the message/command logic reads and writes.  Rendering-only state
(viewport, spinner, width/height, ready) is omitted. -/
structure TuiModel where
  messages : List Message
  textValue : String
  loading : Bool
deriving DecidableEq, Repr

/-- `SessionModel.handleCommand` of the buffered TUI. -/
def tuiHandleCommand (m : TuiModel) (input : String) : TuiModel × TuiCmd :=
  let cmd := goLower (goTrim input)
  if cmd = "/exit" ∨ cmd = "/quit" ∨ cmd = "/q" then
    (m, .quit)
  else if cmd = "/clear" ∨ cmd = "/c" then
    ({ m with messages := [⟨"system", "Conversation cleared."⟩] }, .noCmd)
  else if cmd = "/help" ∨ cmd = "/h" ∨ cmd = "/?" then
    ({ m with messages := m.messages ++ [⟨"system", "help text"⟩] }, .noCmd)
  else
    ({ m with messages := m.messages ++ [⟨"error", "Unknown command: " ++ cmd⟩] }, .noCmd)

/-- The `tea.KeyEnter` branch of the buffered TUI's `Update`: rejected
outright while loading; otherwise empty input is ignored, `/`-input is
dispatched as a command, and anything else is appended as the user message
and a query is started. -/
def tuiEnterKey (m : TuiModel) : TuiModel × TuiCmd :=
  if m.loading then (m, .noCmd)
  else
    let input := goTrim m.textValue
    if input = "" then (m, .noCmd)
    else if goHasPrefix input "/" then tuiHandleCommand m input
    else
      ({ messages := m.messages ++ [⟨"user", input⟩], textValue := "", loading := true },
       .runQuery input)

/-- The `queryDoneMsg` branch of the buffered TUI's `Update`: loading ends;
an error outcome appends an error-role message (the user message is NOT
removed), success appends the assistant message. -/
def tuiQueryDone (m : TuiModel) (err : Option String) (content : String) : TuiModel :=
  { m with
    loading := false
    messages := m.messages ++
      [match err with
       | some e => ⟨"error", "Error: " ++ e⟩
       | none => ⟨"assistant", content⟩] }

/-- The live-streaming TUI model (the `session_tui.go` variant embedded in
the repo that accumulates `currentStream`). -/
structure StreamTuiModel where
  messages : List Message
  currentStream : String
  textValue : String
  loading : Bool
deriving DecidableEq, Repr

/-- `handleCommand` of the streaming TUI (same command set). -/
def streamTuiHandleCommand (m : StreamTuiModel) (input : String) :
    StreamTuiModel × TuiCmd :=
  let cmd := goLower (goTrim input)
  if cmd = "/exit" ∨ cmd = "/quit" ∨ cmd = "/q" then
    (m, .quit)
  else if cmd = "/clear" ∨ cmd = "/c" then
    ({ m with messages := [⟨"system", "Conversation cleared."⟩] }, .noCmd)
  else if cmd = "/help" ∨ cmd = "/h" ∨ cmd = "/?" then
    ({ m with messages := m.messages ++ [⟨"system", "help text"⟩] }, .noCmd)
  else
    ({ m with messages := m.messages ++ [⟨"error", "Unknown command: " ++ cmd⟩] }, .noCmd)

/-- The `tea.KeyEnter` branch of the streaming TUI's `Update`
(`if m.loading { return m, nil }` comes first, before even the command
check). -/
def streamTuiEnterKey (m : StreamTuiModel) : StreamTuiModel × TuiCmd :=
  if m.loading then (m, .noCmd)
  else
    let input := goTrim m.textValue
    if input = "" then (m, .noCmd)
    else if goHasPrefix input "/" then streamTuiHandleCommand m input
    else
      ({ messages := m.messages ++ [⟨"user", input⟩], currentStream := "",
         textValue := "", loading := true },
       .runQuery input)

/-! ## Go slice semantics for the snapshot/append/clear discipline -/

/-- A Go slice header: backing-array identifier and length.  (The code
never reslices with offsets, so an offset field is unnecessary.) -/
structure GoSlice where
  arrId : Nat
  len : Nat
deriving DecidableEq, Repr

/-- The heap of backing arrays, indexed by `arrId`; the stored list's
length is the array's capacity. -/
def heapAt (h : List (List Message)) (i : Nat) : List Message :=
  h.getD i []

/-- The elements a slice denotes. -/
def sliceRead (h : List (List Message)) (s : GoSlice) : List Message :=
  (heapAt h s.arrId).take s.len

/-- `msgs := make([]provider.Message, len(session.messages));
copy(msgs, session.messages)` — a fresh backing array holding a copy. -/
def snapshotCopy (h : List (List Message)) (s : GoSlice) :
    List (List Message) × GoSlice :=
  (h ++ [sliceRead h s], ⟨h.length, s.len⟩)

/-- `append(session.messages, x)` with Go's semantics: write in place when
spare capacity exists, otherwise allocate a larger fresh array (here with
the doubling growth that leaves spare capacity for later in-place writes). -/
def sliceAppend (h : List (List Message)) (s : GoSlice) (x : Message) :
    List (List Message) × GoSlice :=
  let backing := heapAt h s.arrId
  if s.len < backing.length then
    (h.set s.arrId (backing.set s.len x), ⟨s.arrId, s.len + 1⟩)
  else
    (h ++ [backing.take s.len ++ [x] ++ List.replicate (s.len + 1) ⟨"", ""⟩],
     ⟨h.length, s.len + 1⟩)

/-- `session.messages = []provider.Message{}` — the history is replaced by
a fresh empty slice, never mutated in place (`handleCommand`, `/clear`). -/
def sliceClear (h : List (List Message)) : List (List Message) × GoSlice :=
  (h ++ [[]], ⟨h.length, 0⟩)

/-- Mutations the session may perform on its history after a snapshot. -/
inductive SessOp where
  | push (x : Message)
  | clear
deriving Repr

/-- Apply one history mutation to (heap, session slice). -/
def applyOp : List (List Message) × GoSlice → SessOp → List (List Message) × GoSlice
  | (h, s), .push x => sliceAppend h s x
  | (h, _), .clear => sliceClear h

/-- Apply a sequence of history mutations. -/
def applyOps (st : List (List Message) × GoSlice) (ops : List SessOp) :
    List (List Message) × GoSlice :=
  ops.foldl applyOp st

/-! ## Model discovery -/

/-- The possible outcomes of the model-discovery HTTP exchange, abstracted:
request construction failure, transport failure, or a response with a
status and the (possibly failed) decode of its body. -/
inductive ModelsFetch (α : Type) where
  | reqFail
  | doFail
  | resp (status : Nat) (decoded : Option (List α))

/-- An entry of the Claude `/v1/models` response body. -/
structure ClaudeRawModel where
  id : String
  displayName : String
  createdAt : String
deriving DecidableEq, Repr

/-- An entry of the DeepSeek `/v1/models` response body. -/
structure DSRawModel where
  id : String
  ownedBy : String
deriving DecidableEq, Repr

/-- `getFallbackClaudeModels` (verbatim). -/
def fallbackClaudeModels : List ModelInfo :=
  [⟨"claude-3-5-sonnet-20241022", "Claude 3.5 Sonnet", "Balanced intelligence and speed"⟩,
   ⟨"claude-3-5-haiku-20241022", "Claude 3.5 Haiku", "Fast and efficient"⟩,
   ⟨"claude-3-opus-20240229", "Claude 3 Opus", "Most capable"⟩,
   ⟨"claude-3-sonnet-20240229", "Claude 3 Sonnet", "Balanced performance"⟩]

/-- `getFallbackDeepSeekModels` (verbatim). -/
def fallbackDeepSeekModels : List ModelInfo :=
  [⟨"deepseek-chat", "DeepSeek Chat", "General purpose chat model"⟩,
   ⟨"deepseek-reasoner", "DeepSeek Reasoner", "Advanced reasoning model"⟩]

/-- `ClaudeProvider.ListModels`: every failure path returns the fallback
list with a nil error; an empty decoded list does too. -/
def claudeListModels : ModelsFetch ClaudeRawModel → List ModelInfo × Option String
  | .reqFail => (fallbackClaudeModels, none)
  | .doFail => (fallbackClaudeModels, none)
  | .resp status decoded =>
    if status ≠ 200 then (fallbackClaudeModels, none)
    else
      match decoded with
      | none => (fallbackClaudeModels, none)
      | some data =>
        if data.isEmpty then (fallbackClaudeModels, none)
        else (data.map (fun m => ⟨m.id, m.displayName, ""⟩), none)

/-- `DeepSeekProvider.ListModels`: same shape; the listing maps `ID` into
both the id and the display name. -/
def deepseekListModels : ModelsFetch DSRawModel → List ModelInfo × Option String
  | .reqFail => (fallbackDeepSeekModels, none)
  | .doFail => (fallbackDeepSeekModels, none)
  | .resp status decoded =>
    if status ≠ 200 then (fallbackDeepSeekModels, none)
    else
      match decoded with
      | none => (fallbackDeepSeekModels, none)
      | some data =>
        if data.isEmpty then (fallbackDeepSeekModels, none)
        else (data.map (fun m => ⟨m.id, m.id, ""⟩), none)

/-- The discovery outcomes the spec calls failures: request-construction
failure, network error, non-2xx status, undecodable body, empty list. -/
def discoveryFailed : ModelsFetch α → Bool
  | .reqFail => true
  | .doFail => true
  | .resp _ none => true
  | .resp status (some l) => !(200 ≤ status && status ≤ 299) || l.isEmpty

/-! ## Configuration validation (`config.go`) -/

/-- `isPlaceholderKey` translated with Go's exact loop shape: for each
prefix in the table the guard requires a non-empty key and checks either
the (length-clamped) prefix slice or one of three exact placeholder
strings. -/
def isPlaceholderKey (key : List Char) : Bool :=
  let placeholders : List (List Char) :=
    ["YOUR_".data, "REPLACE_".data, "INSERT_".data, "ADD_YOUR_".data, "PASTE_".data]
  placeholders.any (fun p =>
    decide (0 < key.length) &&
      (key.take (min key.length p.length) == p ||
       key == "your-api-key-here".data ||
       key == "sk-...".data ||
       key == "***".data))

/-- Per-provider configuration (`ProviderConfig`). -/
structure ProviderCfg where
  apiKey : List Char
  model : String
deriving DecidableEq, Repr

/-- Parsed configuration (`Config`); the provider map is an association
list. -/
structure Config where
  defaultProvider : String
  providers : List (String × ProviderCfg)
deriving DecidableEq, Repr

/-- Map lookup on the association list. -/
def lookupProvider (provs : List (String × ProviderCfg)) (name : String) :
    Option ProviderCfg :=
  match provs with
  | [] => none
  | kv :: rest => if kv.1 = name then some kv.2 else lookupProvider rest name

/-- The errors `LoadConfig`'s validation section can produce. -/
inductive ConfigError where
  | noDefaultProvider
  | defaultProviderMissing (p : String)
  | emptyKey (p : String)
  | placeholderKey (p : String)
deriving DecidableEq, Repr

/-- The validation section of `LoadConfig` (`config.go` lines 48-67), after
the YAML has been decoded: default provider set and present, its key
non-empty, and not a placeholder. -/
def validateConfig (c : Config) : Except ConfigError Config :=
  if c.defaultProvider = "" then .error .noDefaultProvider
  else
    match lookupProvider c.providers c.defaultProvider with
    | none => .error (.defaultProviderMissing c.defaultProvider)
    | some pc =>
      if pc.apiKey = [] then .error (.emptyKey c.defaultProvider)
      else if isPlaceholderKey pc.apiKey then .error (.placeholderKey c.defaultProvider)
      else .ok c

/-! ## Spec-side observation functions and well-formedness predicates -/

/-- The delta payload a well-formed Claude payload carries: the delta text
for a `content_block_delta` event, nothing (the empty string) for any other
event type. -/
def claudeFragView (data : List Char) : Option (List Char) :=
  (decodeClaudeEvent data).map
    (fun ev => if ev.etype = "content_block_delta".data then ev.delta.dtext else [])

/-- The delta payload a well-formed DeepSeek payload carries:
`Choices[0].Delta.Content`, or the empty string when there are no choices. -/
def dsFragView (data : List Char) : Option (List Char) :=
  (decodeDSResp data).map
    (fun r => match r.choices with
      | [] => []
      | c :: _ => c.delta.dcontent)

/-- A well-formed Claude stream line paired with its delta payload: either
a line without the data marker (carrying no payload), or a marked,
non-sentinel line whose JSON payload decodes. -/
def claudeLineOk (line payload : List Char) : Bool :=
  (!(dataMark.isPrefixOf line) && payload.isEmpty) ||
  (dataMark.isPrefixOf line && !(line.drop dataMark.length == doneTok) &&
   (claudeFragView (line.drop dataMark.length) == some payload))

/-- A well-formed DeepSeek stream line paired with its delta payload. -/
def dsLineOk (line payload : List Char) : Bool :=
  (!(dataMark.isPrefixOf line) && payload.isEmpty) ||
  (dataMark.isPrefixOf line && !(line.drop dataMark.length == doneTok) &&
   (dsFragView (line.drop dataMark.length) == some payload))

/-- All lines well-formed, with their payloads. -/
def claudeLinesOk : List (List Char) → List (List Char) → Bool
  | [], [] => true
  | l :: ls, p :: ps => claudeLineOk l p && claudeLinesOk ls ps
  | _, _ => false

/-- All lines well-formed, with their payloads. -/
def dsLinesOk : List (List Char) → List (List Char) → Bool
  | [], [] => true
  | l :: ls, p :: ps => dsLineOk l p && dsLinesOk ls ps
  | _, _ => false

/-! ## Helper lemmas -/

lemma claudeFragOf_of_view (data p : List Char) (h : claudeFragView data = some p) :
    claudeFragOf data = if p.isEmpty then none else some p := by
  unfold claudeFragView at h
  unfold claudeFragOf
  cases hd : decodeClaudeEvent data with
  | none => rw [hd] at h; exact absurd h (by simp)
  | some ev =>
    rw [hd] at h
    simp only [Option.map_some'] at h
    obtain rfl : (if ev.etype = "content_block_delta".data then ev.delta.dtext else []) = p :=
      by injection h
    by_cases ht : ev.etype = "content_block_delta".data
    · by_cases hx : ev.delta.dtext = [] <;>
        simp [ht, hx, List.isEmpty_iff]
    · simp [ht, List.isEmpty_iff]

lemma dsFragOf_of_view (data p : List Char) (h : dsFragView data = some p) :
    dsFragOf data = if p.isEmpty then none else some p := by
  unfold dsFragView at h
  unfold dsFragOf
  cases hd : decodeDSResp data with
  | none => rw [hd] at h; exact absurd h (by simp)
  | some r =>
    rw [hd] at h
    simp only [Option.map_some'] at h
    cases hc : r.choices with
    | nil =>
      rw [hc] at h
      obtain rfl : ([] : List Char) = p := by injection h
      simp [hc]
    | cons c rest =>
      rw [hc] at h
      obtain rfl : c.delta.dcontent = p := by injection h
      by_cases hx : c.delta.dcontent = [] <;> simp [hc, hx, List.isEmpty_iff]

lemma dataMark_isPrefixOf_append (x : List Char) :
    dataMark.isPrefixOf (dataMark ++ x) = true := by
  rw [List.isPrefixOf_iff_prefix]
  exact List.prefix_append _ _

lemma dataMark_drop_append (x : List Char) :
    (dataMark ++ x).drop dataMark.length = x :=
  List.drop_left _ _

lemma flatten_filter_ne_nil (ps : List (List Char)) :
    (ps.filter (fun p => !p.isEmpty)).flatten = ps.flatten := by
  induction ps with
  | nil => rfl
  | cons p rest ih =>
    by_cases hp : p.isEmpty
    · have hp' : p = [] := List.isEmpty_iff.mp hp
      simp [List.filter_cons, hp, hp', ih]
    · simp [List.filter_cons, hp, ih]

lemma dsLineOk_elim {line p : List Char} (h : dsLineOk line p = true) :
    (dataMark.isPrefixOf line = false ∧ p = []) ∨
    (dataMark.isPrefixOf line = true ∧ line.drop dataMark.length ≠ doneTok ∧
     dsFragView (line.drop dataMark.length) = some p) := by
  unfold dsLineOk at h
  rcases Bool.or_eq_true_iff.mp h with h1 | h2
  · rcases Bool.and_eq_true_iff.mp h1 with ⟨ha, hb⟩
    exact Or.inl ⟨by simpa using ha, List.isEmpty_iff.mp hb⟩
  · rcases Bool.and_eq_true_iff.mp h2 with ⟨hab, hc⟩
    rcases Bool.and_eq_true_iff.mp hab with ⟨ha, hb⟩
    refine Or.inr ⟨ha, ?_, by simpa using hc⟩
    simpa using hb

lemma claudeLineOk_elim {line p : List Char} (h : claudeLineOk line p = true) :
    (dataMark.isPrefixOf line = false ∧ p = []) ∨
    (dataMark.isPrefixOf line = true ∧ line.drop dataMark.length ≠ doneTok ∧
     claudeFragView (line.drop dataMark.length) = some p) := by
  unfold claudeLineOk at h
  rcases Bool.or_eq_true_iff.mp h with h1 | h2
  · rcases Bool.and_eq_true_iff.mp h1 with ⟨ha, hb⟩
    exact Or.inl ⟨by simpa using ha, List.isEmpty_iff.mp hb⟩
  · rcases Bool.and_eq_true_iff.mp h2 with ⟨hab, hc⟩
    rcases Bool.and_eq_true_iff.mp hab with ⟨ha, hb⟩
    refine Or.inr ⟨ha, ?_, by simpa using hc⟩
    simpa using hb

lemma ds_process_wf (ls : List (List Char)) :
    ∀ (ps post : List (List Char)), dsLinesOk ls ps = true →
      deepseekProcessLines (ls ++ (dataMark ++ doneTok) :: post) =
        ps.filter (fun p => !p.isEmpty) := by
  induction ls with
  | nil =>
    intro ps post h
    cases ps with
    | nil =>
      simp [deepseekProcessLines, dataMark_isPrefixOf_append, dataMark_drop_append]
    | cons p ps' => simp [dsLinesOk] at h
  | cons line rest ih =>
    intro ps post h
    cases ps with
    | nil => simp [dsLinesOk] at h
    | cons p ps' =>
      rcases Bool.and_eq_true_iff.mp h with ⟨hline, hrest⟩
      rcases dsLineOk_elim hline with ⟨hpre, rfl⟩ | ⟨hpre, hdone, hview⟩
      · simp [deepseekProcessLines, hpre, List.filter_cons, ih ps' post hrest]
      · have hfrag := dsFragOf_of_view _ _ hview
        by_cases hp : p.isEmpty
        · have hp' : p = [] := List.isEmpty_iff.mp hp
          simp [deepseekProcessLines, hpre, hdone, hfrag, hp, hp',
            List.filter_cons, ih ps' post hrest]
        · simp [deepseekProcessLines, hpre, hdone, hfrag, hp,
            List.filter_cons, ih ps' post hrest]

lemma claudeLineFrag_sentinel : claudeLineFrag (dataMark ++ doneTok) = none := by
  simp [claudeLineFrag, dataMark_isPrefixOf_append, dataMark_drop_append]

lemma claude_process_lines_wf (ls : List (List Char)) :
    ∀ ps : List (List Char), claudeLinesOk ls ps = true →
      claudeProcessLines ls = ps.filter (fun p => !p.isEmpty) := by
  induction ls with
  | nil =>
    intro ps h
    cases ps with
    | nil => rfl
    | cons p ps' => simp [claudeLinesOk] at h
  | cons line rest ih =>
    intro ps h
    cases ps with
    | nil => simp [claudeLinesOk] at h
    | cons p ps' =>
      rcases Bool.and_eq_true_iff.mp h with ⟨hline, hrest⟩
      rcases claudeLineOk_elim hline with ⟨hpre, rfl⟩ | ⟨hpre, hdone, hview⟩
      · simp [claudeProcessLines, List.filterMap_cons, claudeLineFrag, hpre,
          List.filter_cons]
        simpa [claudeProcessLines] using ih ps' hrest
      · have hfrag := claudeFragOf_of_view _ _ hview
        by_cases hp : p.isEmpty
        · have hp' : p = [] := List.isEmpty_iff.mp hp
          simp [claudeProcessLines, List.filterMap_cons, claudeLineFrag, hpre, hdone,
            hfrag, hp, hp', List.filter_cons]
          simpa [claudeProcessLines] using ih ps' hrest
        · simp [claudeProcessLines, List.filterMap_cons, claudeLineFrag, hpre, hdone,
            hfrag, hp, List.filter_cons]
          simpa [claudeProcessLines] using ih ps' hrest

lemma claude_process_wf (ls : List (List Char)) (ps : List (List Char))
    (h : claudeLinesOk ls ps = true) :
    claudeProcessLines (ls ++ [dataMark ++ doneTok]) =
      ps.filter (fun p => !p.isEmpty) := by
  unfold claudeProcessLines
  rw [List.filterMap_append]
  have hs : List.filterMap claudeLineFrag [dataMark ++ doneTok] = [] := by
    simp [List.filterMap_cons, claudeLineFrag_sentinel]
  rw [hs, List.append_nil]
  exact claude_process_lines_wf ls ps h

lemma claudeLineFrag_undecodable {bad : List Char}
    (h1 : dataMark.isPrefixOf bad = true)
    (h2 : bad.drop dataMark.length ≠ doneTok)
    (h3 : decodeClaudeEvent (bad.drop dataMark.length) = none) :
    claudeLineFrag bad = none := by
  simp [claudeLineFrag, h1, h2, claudeFragOf, h3]

lemma ds_process_skip_bad (pre : List (List Char)) {bad : List Char}
    (post : List (List Char))
    (h1 : dataMark.isPrefixOf bad = true)
    (h2 : bad.drop dataMark.length ≠ doneTok)
    (h3 : decodeDSResp (bad.drop dataMark.length) = none) :
    deepseekProcessLines (pre ++ bad :: post) = deepseekProcessLines (pre ++ post) := by
  induction pre with
  | nil =>
    simp [deepseekProcessLines, h1, h2, dsFragOf, h3]
  | cons line rest ih =>
    by_cases hp : dataMark.isPrefixOf line
    · by_cases hd : line.drop dataMark.length = doneTok
      · simp [deepseekProcessLines, hp, hd]
      · cases hf : dsFragOf (line.drop dataMark.length) with
        | none => simp [deepseekProcessLines, hp, hd, hf, ih]
        | some f => simp [deepseekProcessLines, hp, hd, hf, ih]
    · simp [deepseekProcessLines, hp, ih]

lemma claude_process_skip_bad (pre : List (List Char)) {bad : List Char}
    (post : List (List Char))
    (h1 : dataMark.isPrefixOf bad = true)
    (h2 : bad.drop dataMark.length ≠ doneTok)
    (h3 : decodeClaudeEvent (bad.drop dataMark.length) = none) :
    claudeProcessLines (pre ++ bad :: post) = claudeProcessLines (pre ++ post) := by
  unfold claudeProcessLines
  rw [List.filterMap_append, List.filterMap_append, List.filterMap_cons,
    claudeLineFrag_undecodable h1 h2 h3]

lemma heapAt_set_ne (h : List (List Message)) (i j : Nat) (a : List Message)
    (hne : i ≠ j) : heapAt (h.set j a) i = heapAt h i := by
  induction h generalizing i j with
  | nil => rfl
  | cons x t ih =>
    cases j with
    | zero =>
      cases i with
      | zero => exact absurd rfl hne
      | succ i' => rfl
    | succ j' =>
      cases i with
      | zero => rfl
      | succ i' =>
        simp only [List.set]
        exact ih i' j' (fun hc => hne (by rw [hc]))

lemma heapAt_append_lt (h t : List (List Message)) (i : Nat) (hi : i < h.length) :
    heapAt (h ++ t) i = heapAt h i := by
  induction h generalizing i with
  | nil => exact absurd hi (by simp)
  | cons x r ih =>
    cases i with
    | zero => rfl
    | succ i' =>
      simp only [List.cons_append]
      exact ih i' (by simpa using hi)

lemma heapAt_append_self (h : List (List Message)) (a : List Message) :
    heapAt (h ++ [a]) h.length = a := by
  induction h with
  | nil => rfl
  | cons x r ih => simpa using ih

lemma applyOp_frame (op : SessOp) (h : List (List Message)) (s : GoSlice)
    (i : Nat) (hne : s.arrId ≠ i) (hi : i < h.length) :
    heapAt (applyOp (h, s) op).1 i = heapAt h i ∧
    (applyOp (h, s) op).2.arrId ≠ i ∧
    i < (applyOp (h, s) op).1.length := by
  cases op with
  | push x =>
    simp only [applyOp, sliceAppend]
    by_cases hc : s.len < (heapAt h s.arrId).length
    · simp only [hc, if_true, if_pos]
      refine ⟨heapAt_set_ne h i s.arrId _ (fun hc2 => hne hc2.symm), hne, ?_⟩
      simpa using hi
    · simp only [hc, if_false, if_neg, not_false_iff]
      refine ⟨heapAt_append_lt h _ i hi, ?_, ?_⟩
      · simp only [ne_eq]
        omega
      · simp only [List.length_append, List.length_cons]
        omega
  | clear =>
    simp only [applyOp, sliceClear]
    refine ⟨heapAt_append_lt h _ i hi, ?_, ?_⟩
    · simp only [ne_eq]
      omega
    · simp only [List.length_append, List.length_cons]
      omega

lemma applyOps_frame (ops : List SessOp) :
    ∀ (h : List (List Message)) (s : GoSlice) (i : Nat),
      s.arrId ≠ i → i < h.length →
      heapAt (applyOps (h, s) ops).1 i = heapAt h i ∧
      (applyOps (h, s) ops).2.arrId ≠ i ∧
      i < (applyOps (h, s) ops).1.length := by
  induction ops with
  | nil => intro h s i hne hi; exact ⟨rfl, hne, hi⟩
  | cons op rest ih =>
    intro h s i hne hi
    have hstep := applyOp_frame op h s i hne hi
    have hrec := ih (applyOp (h, s) op).1 (applyOp (h, s) op).2 i hstep.2.1 hstep.2.2
    have happ : applyOps (h, s) (op :: rest) =
        applyOps ((applyOp (h, s) op).1, (applyOp (h, s) op).2) rest := by
      simp [applyOps, List.foldl_cons]
    rw [happ]
    exact ⟨hrec.1.trans hstep.1, hrec.2.1, hrec.2.2⟩

lemma take_min_eq_iff (key p : List Char) :
    key.take (min key.length p.length) = p ↔ p <+: key := by
  constructor
  · intro h
    rcases le_or_lt p.length key.length with hle | hlt
    · rw [min_eq_right hle] at h
      exact List.prefix_iff_eq_take.mpr h.symm
    · exfalso
      have hlen := congrArg List.length h
      simp [List.length_take] at hlen
      omega
  · intro h
    rw [min_eq_right h.length_le]
    exact (List.prefix_iff_eq_take.mp h).symm

/-! ## Concrete stream data used by the evaluation theorems -/

/-- A complete Claude SSE read chunk carrying one `content_block_delta`
event with text `"Hi"`, terminated by a newline. -/
def sseChunkWhole : List Char :=
  ("data: \x7b\"type\":\"content_block_delta\",\"delta\":\x7b\"type\":\"text_delta\",\"text\":\"Hi\"\x7d\x7d\n").data

/-- The first part of `sseChunkWhole` when the network hands it over split
mid-line (the split falls inside the JSON payload). -/
def sseChunkA : List Char := ("data: \x7b\"type\":\"content_bl").data

/-- The second part of `sseChunkWhole` under that split. -/
def sseChunkB : List Char :=
  ("ock_delta\",\"delta\":\x7b\"type\":\"text_delta\",\"text\":\"Hi\"\x7d\x7d\n").data

/-- A well-formed DeepSeek stream line with delta content `"He"`. -/
def dsWLine1 : List Char :=
  ("data: \x7b\"choices\":[\x7b\"delta\":\x7b\"content\":\"He\"\x7d\x7d]\x7d").data

/-- A well-formed DeepSeek stream line with delta content `"llo"`. -/
def dsWLine2 : List Char :=
  ("data: \x7b\"choices\":[\x7b\"delta\":\x7b\"content\":\"llo\"\x7d\x7d]\x7d").data

/-- A well-formed Claude stream line with delta text `"He"`. -/
def clWLine1 : List Char :=
  ("data: \x7b\"type\":\"content_block_delta\",\"delta\":\x7b\"type\":\"text_delta\",\"text\":\"He\"\x7d\x7d").data

/-- A well-formed Claude stream line with delta text `"llo"`. -/
def clWLine2 : List Char :=
  ("data: \x7b\"type\":\"content_block_delta\",\"delta\":\x7b\"type\":\"text_delta\",\"text\":\"llo\"\x7d\x7d").data

/-- A marked stream line whose JSON payload is malformed. -/
def badWLine : List Char := ("data: \x7boops").data

/-! ## Claim theorems -/

/-- C1 (code bug): chunk-boundary invariance fails for the Claude SSE
parser.  The same typed-event byte stream, delivered whole, makes
`QueryStreamWithHistory` write the fragment `"Hi"`; delivered split
mid-line into two read chunks, it writes nothing — because each chunk is
split on newlines in isolation and no partial line is buffered across
chunks. -/
theorem claude_chunk_split_loses_fragment :
    sseChunkA ++ sseChunkB = sseChunkWhole ∧
    (claudeQueryRun 200 "" [sseChunkWhole]).1 = ["Hi".data] ∧
    (claudeQueryRun 200 "" [sseChunkA, sseChunkB]).1 = [] ∧
    (claudeQueryRun 200 "" [sseChunkA, sseChunkB]).1 ≠
      (claudeQueryRun 200 "" [sseChunkWhole]).1 :=
  ⟨by decide, by decide, by decide, by decide⟩

/-- C2 counterexample: in the event-loop (TUI) session engine an erroring
turn does NOT restore the pre-turn message count.  Starting from an empty
history, entering `"hi"` and receiving an error outcome leaves two
messages (the retained user message plus an error entry), not zero. -/
theorem tui_error_turn_keeps_user_message :
    (tuiQueryDone (tuiEnterKey ⟨[], "hi", false⟩).1 (some "boom") "").messages =
      [⟨"user", "hi"⟩, ⟨"error", "Error: boom"⟩] ∧
    (tuiQueryDone (tuiEnterKey ⟨[], "hi", false⟩).1 (some "boom") "").messages.length ≠
      ([] : List Message).length :=
  ⟨by decide, by decide⟩

/-- C2 (amended): when the provider's streaming call errors, the blocking
REPL engine removes the just-appended user message, restoring the history
exactly; the event-loop (TUI) engine instead keeps the user message and
appends an error-role entry, so its message count grows by two. -/
theorem session_error_rollback_amended :
    (∀ (h : List Message) (input e : String), replTurn h input (.error e) = h) ∧
    (∀ (m : TuiModel) (e : String),
      m.loading = false → goTrim m.textValue ≠ "" →
      goHasPrefix (goTrim m.textValue) "/" = false →
      (tuiQueryDone (tuiEnterKey m).1 (some e) "").messages =
        m.messages ++ [⟨"user", goTrim m.textValue⟩, ⟨"error", "Error: " ++ e⟩]) := by
  constructor
  · intro h input e
    simp [replTurn]
  · intro m e h1 h2 h3
    simp [tuiEnterKey, tuiQueryDone, h1, h2, h3]

/-- Witness for the amended C2 theorem at concrete inputs. -/
theorem session_error_rollback_amended_witness :
    replTurn [⟨"user", "a"⟩] "b" (.error "x") = [⟨"user", "a"⟩] ∧
    (tuiQueryDone (tuiEnterKey ⟨[⟨"user", "a"⟩], " q ", false⟩).1 (some "x") "").messages =
      [⟨"user", "a"⟩] ++ [⟨"user", "q"⟩, ⟨"error", "Error: x"⟩] :=
  ⟨session_error_rollback_amended.1 [⟨"user", "a"⟩] "b" "x",
   session_error_rollback_amended.2 ⟨[⟨"user", "a"⟩], " q ", false⟩ "x"
     (by decide) (by decide) (by decide)⟩

/-- C3 counterexample: DeepSeek's streaming call does not classify a 401 —
it returns the generic status+body error, not the invalid-API-key
message. -/
theorem deepseek_401_unclassified :
    (deepseekQueryRun 401 "unauthorized" []).2 =
      some "API error (status 401): unauthorized" ∧
    (deepseekQueryRun 401 "unauthorized" []).2 ≠
      some "[!] Invalid API key for DeepSeek. Check your config.yaml" :=
  ⟨by decide, by decide⟩

/-- C3 (amended): the Claude streaming call classifies every non-2xx
status through `HandleAPIError` (401 invalid key, 402 insufficient
balance, 429 rate limit, otherwise the generic status+body error), while
the DeepSeek streaming call returns the generic status+body error for
every non-2xx status without per-status classification. -/
theorem api_error_classification_amended :
    (∀ body name, handleAPIError 401 body name =
      "[!] Invalid API key for " ++ name ++ ". Check your config.yaml") ∧
    (∀ body name, handleAPIError 402 body name =
      "[!] Insufficient balance/credits for " ++ name ++
        ". Please add funds to your account") ∧
    (∀ body name, handleAPIError 429 body name =
      "[!] Rate limit exceeded for " ++ name ++ ". Please wait and try again") ∧
    (∀ status body name, status ≠ 401 → status ≠ 402 → status ≠ 429 →
      handleAPIError status body name = genericAPIError status body) ∧
    (∀ status body chunks, ¬ (200 ≤ status ∧ status ≤ 299) →
      (claudeQueryRun status body chunks).2 =
        some (handleAPIError status body "Claude")) ∧
    (∀ status body lines, ¬ (200 ≤ status ∧ status ≤ 299) →
      (deepseekQueryRun status body lines).2 =
        some (genericAPIError status body)) := by
  refine ⟨fun body name => rfl, fun body name => rfl, fun body name => rfl,
    ?_, ?_, ?_⟩
  · intro status body name h1 h2 h3
    simp [handleAPIError, genericAPIError, h1, h2, h3]
  · intro status body chunks h
    have hne : status ≠ 200 := by rintro rfl; exact h ⟨le_refl _, by omega⟩
    simp [claudeQueryRun, hne]
  · intro status body lines h
    have hne : status ≠ 200 := by rintro rfl; exact h ⟨le_refl _, by omega⟩
    simp [deepseekQueryRun, hne]

/-- Witness for the amended C3 theorem at concrete inputs. -/
theorem api_error_classification_amended_witness :
    handleAPIError 401 "b" "Claude" =
      "[!] Invalid API key for Claude. Check your config.yaml" ∧
    handleAPIError 500 "oops" "Claude" = genericAPIError 500 "oops" ∧
    (claudeQueryRun 503 "down" []).2 = some (handleAPIError 503 "down" "Claude") ∧
    (deepseekQueryRun 429 "slow" []).2 = some (genericAPIError 429 "slow") :=
  ⟨api_error_classification_amended.1 "b" "Claude",
   api_error_classification_amended.2.2.2.1 500 "oops" "Claude"
     (by decide) (by decide) (by decide),
   api_error_classification_amended.2.2.2.2.1 503 "down" [] (by omega),
   api_error_classification_amended.2.2.2.2.2 429 "slow" [] (by omega)⟩

/-- C4: for every well-formed `"data: "`-delimited stream ending in the
`"[DONE]"` sentinel, the concatenation of the emitted fragments equals the
concatenation of the delta payloads of the lines strictly before the
sentinel, nothing is emitted from the sentinel onwards, and the emitted
fragments are exactly the non-empty payloads in order — for both the
DeepSeek scanner loop and the Claude line loop. -/
theorem sentinel_stream_concat
    (ls ps post cls cps : List (List Char))
    (hds : dsLinesOk ls ps = true)
    (hcl : claudeLinesOk cls cps = true) :
    ((deepseekProcessLines (ls ++ (dataMark ++ doneTok) :: post)).flatten =
        ps.flatten ∧
      deepseekProcessLines (ls ++ (dataMark ++ doneTok) :: post) =
        ps.filter (fun p => !p.isEmpty)) ∧
    ((claudeProcessLines (cls ++ [dataMark ++ doneTok])).flatten = cps.flatten ∧
      claudeProcessLines (cls ++ [dataMark ++ doneTok]) =
        cps.filter (fun p => !p.isEmpty)) := by
  have h1 := ds_process_wf ls ps post hds
  have h2 := claude_process_wf cls cps hcl
  exact ⟨⟨by rw [h1, flatten_filter_ne_nil], h1⟩,
         ⟨by rw [h2, flatten_filter_ne_nil], h2⟩⟩

/-- Witness for C4 at a concrete stream (including a keep-alive blank line
and trailing post-sentinel junk on the DeepSeek side). -/
theorem sentinel_stream_concat_witness :
    dsLinesOk [dsWLine1, [], dsWLine2] ["He".data, [], "llo".data] = true ∧
    claudeLinesOk [clWLine1, clWLine2] ["He".data, "llo".data] = true ∧
    ((deepseekProcessLines
          ([dsWLine1, [], dsWLine2] ++ (dataMark ++ doneTok) :: ["junk".data])).flatten =
        (["He".data, [], "llo".data] : List (List Char)).flatten ∧
      deepseekProcessLines
          ([dsWLine1, [], dsWLine2] ++ (dataMark ++ doneTok) :: ["junk".data]) =
        (["He".data, [], "llo".data] : List (List Char)).filter (fun p => !p.isEmpty)) ∧
    ((claudeProcessLines ([clWLine1, clWLine2] ++ [dataMark ++ doneTok])).flatten =
        (["He".data, "llo".data] : List (List Char)).flatten ∧
      claudeProcessLines ([clWLine1, clWLine2] ++ [dataMark ++ doneTok]) =
        (["He".data, "llo".data] : List (List Char)).filter (fun p => !p.isEmpty)) :=
  ⟨by decide, by decide,
   (sentinel_stream_concat [dsWLine1, [], dsWLine2] ["He".data, [], "llo".data]
      ["junk".data] [clWLine1, clWLine2] ["He".data, "llo".data]
      (by decide) (by decide)).1,
   (sentinel_stream_concat [dsWLine1, [], dsWLine2] ["He".data, [], "llo".data]
      ["junk".data] [clWLine1, clWLine2] ["He".data, "llo".data]
      (by decide) (by decide)).2⟩

/-- C5: a non-2xx HTTP status makes the streaming call return an error and
write zero fragments, for both the Claude and the DeepSeek provider. -/
theorem non2xx_error_no_fragments (status : Nat) (body : String)
    (chunks lines : List (List Char))
    (h : ¬ (200 ≤ status ∧ status ≤ 299)) :
    (claudeQueryRun status body chunks).1 = [] ∧
    (claudeQueryRun status body chunks).2.isSome = true ∧
    (deepseekQueryRun status body lines).1 = [] ∧
    (deepseekQueryRun status body lines).2.isSome = true := by
  have hne : status ≠ 200 := by rintro rfl; exact h ⟨le_refl _, by omega⟩
  simp [claudeQueryRun, deepseekQueryRun, hne]

/-- Witness for C5 at status 404. -/
theorem non2xx_error_no_fragments_witness :
    (claudeQueryRun 404 "nf" [sseChunkWhole]).1 = [] ∧
    (claudeQueryRun 404 "nf" [sseChunkWhole]).2.isSome = true ∧
    (deepseekQueryRun 404 "nf" [dsWLine1]).1 = [] ∧
    (deepseekQueryRun 404 "nf" [dsWLine1]).2.isSome = true :=
  non2xx_error_no_fragments 404 "nf" [sseChunkWhole] [dsWLine1] (by omega)

/-- C6: a single marked line whose JSON payload is malformed is skipped
without aborting: the DeepSeek call still succeeds and emits exactly the
fragments of the stream without that line, and the Claude line loop emits
the same fragments with or without it. -/
theorem malformed_line_skipped
    (pre post cpre cpost : List (List Char)) (bad : List Char) (body : String)
    (h1 : dataMark.isPrefixOf bad = true)
    (h2 : bad.drop dataMark.length ≠ doneTok)
    (h3 : decodeDSResp (bad.drop dataMark.length) = none)
    (h4 : decodeClaudeEvent (bad.drop dataMark.length) = none) :
    deepseekQueryRun 200 body (pre ++ bad :: post) =
      (deepseekProcessLines (pre ++ post), none) ∧
    claudeProcessLines (cpre ++ bad :: cpost) =
      claudeProcessLines (cpre ++ cpost) := by
  constructor
  · simp [deepseekQueryRun, ds_process_skip_bad pre post h1 h2 h3]
  · exact claude_process_skip_bad cpre cpost h1 h2 h4

/-- Witness for C6: the corrupt line `"data: \x7boops"` between two
well-formed lines is skipped and `"He"`, `"llo"` are still emitted in
order. -/
theorem malformed_line_skipped_witness :
    deepseekQueryRun 200 "" ([dsWLine1] ++ badWLine :: [dsWLine2]) =
      (deepseekProcessLines ([dsWLine1] ++ [dsWLine2]), none) ∧
    claudeProcessLines ([clWLine1] ++ badWLine :: [clWLine2]) =
      claudeProcessLines ([clWLine1] ++ [clWLine2]) :=
  malformed_line_skipped [dsWLine1] [dsWLine2] [clWLine1] [clWLine2] badWLine ""
    (by decide) (by decide) (by decide) (by decide)

/-- C7: `ListModels` never returns an error, and on every discovery
failure (request construction, transport, non-2xx, undecodable body,
empty list) it returns the provider's fixed non-empty fallback list. -/
theorem list_models_total_fallback (f : ModelsFetch ClaudeRawModel)
    (g : ModelsFetch DSRawModel) :
    (claudeListModels f).2 = none ∧ (deepseekListModels g).2 = none ∧
    (discoveryFailed f = true →
      claudeListModels f = (fallbackClaudeModels, none) ∧
      fallbackClaudeModels ≠ []) ∧
    (discoveryFailed g = true →
      deepseekListModels g = (fallbackDeepSeekModels, none) ∧
      fallbackDeepSeekModels ≠ []) := by
  refine ⟨?_, ?_, ?_, ?_⟩
  · cases f with
    | reqFail => rfl
    | doFail => rfl
    | resp status decoded =>
      cases decoded with
      | none => by_cases hs : status = 200 <;> simp [claudeListModels, hs]
      | some data =>
        by_cases hs : status = 200 <;> by_cases hd : data.isEmpty <;>
          simp [claudeListModels, hs, hd]
  · cases g with
    | reqFail => rfl
    | doFail => rfl
    | resp status decoded =>
      cases decoded with
      | none => by_cases hs : status = 200 <;> simp [deepseekListModels, hs]
      | some data =>
        by_cases hs : status = 200 <;> by_cases hd : data.isEmpty <;>
          simp [deepseekListModels, hs, hd]
  · intro hf
    refine ⟨?_, by decide⟩
    cases f with
    | reqFail => rfl
    | doFail => rfl
    | resp status decoded =>
      cases decoded with
      | none => by_cases hs : status = 200 <;> simp [claudeListModels, hs]
      | some data =>
        by_cases hs : status = 200
        · subst hs
          have hd : data.isEmpty = true := by simpa [discoveryFailed] using hf
          simp [claudeListModels, hd]
        · simp [claudeListModels, hs]
  · intro hg
    refine ⟨?_, by decide⟩
    cases g with
    | reqFail => rfl
    | doFail => rfl
    | resp status decoded =>
      cases decoded with
      | none => by_cases hs : status = 200 <;> simp [deepseekListModels, hs]
      | some data =>
        by_cases hs : status = 200
        · subst hs
          have hd : data.isEmpty = true := by simpa [discoveryFailed] using hg
          simp [deepseekListModels, hd]
        · simp [deepseekListModels, hs]

/-- Witness for C7 at a transport failure and a non-2xx response. -/
theorem list_models_total_fallback_witness :
    (claudeListModels .doFail).2 = none ∧
    (deepseekListModels (.resp 500 none)).2 = none ∧
    (claudeListModels .doFail = (fallbackClaudeModels, none) ∧
      fallbackClaudeModels ≠ []) ∧
    (deepseekListModels (.resp 500 none) = (fallbackDeepSeekModels, none) ∧
      fallbackDeepSeekModels ≠ []) := by
  have h := list_models_total_fallback .doFail (.resp 500 none)
  exact ⟨h.1, h.2.1, h.2.2.1 (by decide), h.2.2.2 (by decide)⟩

/-- C8: the message slice handed to the in-flight streaming call is a
defensive copy: after the snapshot, any sequence of session appends and
wholesale clears leaves the snapshot's content (hence its length)
unchanged. -/
theorem snapshot_defensive_copy (h : List (List Message)) (s : GoSlice)
    (hv : s.arrId < h.length) (ops : List SessOp) :
    sliceRead (applyOps ((snapshotCopy h s).1, s) ops).1 (snapshotCopy h s).2 =
      sliceRead h s := by
  have hne : s.arrId ≠ h.length := Nat.ne_of_lt hv
  have hlen : h.length < (h ++ [sliceRead h s]).length := by simp
  have hframe := applyOps_frame ops (h ++ [sliceRead h s]) s h.length hne hlen
  show sliceRead (applyOps (h ++ [sliceRead h s], s) ops).1 ⟨h.length, s.len⟩ =
    sliceRead h s
  unfold sliceRead
  show (heapAt (applyOps (h ++ [sliceRead h s], s) ops).1 h.length).take s.len =
    (heapAt h s.arrId).take s.len
  rw [hframe.1, heapAt_append_self]
  unfold sliceRead
  simp [List.take_take]

/-- Witness for C8: a snapshot of a one-message history survives an
append, a clear and another append. -/
theorem snapshot_defensive_copy_witness :
    (⟨0, 1⟩ : GoSlice).arrId < ([[⟨"user", "hi"⟩]] : List (List Message)).length ∧
    sliceRead
        (applyOps ((snapshotCopy [[⟨"user", "hi"⟩]] ⟨0, 1⟩).1, ⟨0, 1⟩)
          [.push ⟨"assistant", "yo"⟩, .clear, .push ⟨"user", "again"⟩]).1
        (snapshotCopy [[⟨"user", "hi"⟩]] ⟨0, 1⟩).2 =
      sliceRead [[⟨"user", "hi"⟩]] ⟨0, 1⟩ :=
  ⟨by decide,
   snapshot_defensive_copy [[⟨"user", "hi"⟩]] ⟨0, 1⟩ (by decide)
     [.push ⟨"assistant", "yo"⟩, .clear, .push ⟨"user", "again"⟩]⟩

/-- C9: an Enter key event that arrives while a query is in flight is
rejected before anything else happens — in both TUI variants the model
(message list, loading flag, streaming text, input text) is returned
unchanged and no command or query is dispatched, even when the input text
is a command. -/
theorem enter_while_loading_rejected :
    (∀ m : StreamTuiModel, m.loading = true →
      streamTuiEnterKey m = (m, TuiCmd.noCmd)) ∧
    (∀ m : TuiModel, m.loading = true → tuiEnterKey m = (m, TuiCmd.noCmd)) := by
  constructor
  · intro m hm
    simp [streamTuiEnterKey, hm]
  · intro m hm
    simp [tuiEnterKey, hm]

/-- Witness for C9 with command text pending in the input box. -/
theorem enter_while_loading_rejected_witness :
    streamTuiEnterKey ⟨[⟨"user", "hi"⟩], "part", "/clear", true⟩ =
      (⟨[⟨"user", "hi"⟩], "part", "/clear", true⟩, TuiCmd.noCmd) ∧
    tuiEnterKey ⟨[⟨"user", "hi"⟩], "/clear", true⟩ =
      (⟨[⟨"user", "hi"⟩], "/clear", true⟩, TuiCmd.noCmd) :=
  ⟨enter_while_loading_rejected.1 ⟨[⟨"user", "hi"⟩], "part", "/clear", true⟩ rfl,
   enter_while_loading_rejected.2 ⟨[⟨"user", "hi"⟩], "/clear", true⟩ rfl⟩

/-- C10: `isPlaceholderKey` returns true exactly for keys beginning with
one of the five placeholder prefixes or equal to one of the three exact
placeholder strings; in particular it is false on the empty string, which
is instead rejected by `LoadConfig`'s separate empty-key check. -/
theorem placeholder_key_characterization :
    (∀ key : List Char, isPlaceholderKey key = true ↔
      ("YOUR_".data <+: key ∨ "REPLACE_".data <+: key ∨ "INSERT_".data <+: key ∨
       "ADD_YOUR_".data <+: key ∨ "PASTE_".data <+: key ∨
       key = "your-api-key-here".data ∨ key = "sk-...".data ∨
       key = "***".data)) ∧
    isPlaceholderKey [] = false ∧
    (∀ (dp : String) (provs : List (String × ProviderCfg)) (mdl : String),
      dp ≠ "" → lookupProvider provs dp = some ⟨[], mdl⟩ →
      validateConfig ⟨dp, provs⟩ = .error (.emptyKey dp)) := by
  refine ⟨?_, by decide, ?_⟩
  · intro key
    by_cases hk : key = []
    · subst hk
      decide
    · have h0 : 0 < key.length := List.length_pos.mpr hk
      simp only [isPlaceholderKey, List.any_cons, List.any_nil, Bool.or_eq_true,
        Bool.and_eq_true, decide_eq_true_eq, beq_iff_eq, Bool.or_false,
        take_min_eq_iff]
      tauto
  · intro dp provs mdl h1 h2
    simp [validateConfig, h1, h2]

/-- Witness for C10 at concrete keys and a concrete configuration. -/
theorem placeholder_key_characterization_witness :
    (isPlaceholderKey "YOUR_KEY".data = true ↔
      ("YOUR_".data <+: "YOUR_KEY".data ∨ "REPLACE_".data <+: "YOUR_KEY".data ∨
       "INSERT_".data <+: "YOUR_KEY".data ∨ "ADD_YOUR_".data <+: "YOUR_KEY".data ∨
       "PASTE_".data <+: "YOUR_KEY".data ∨
       "YOUR_KEY".data = "your-api-key-here".data ∨
       "YOUR_KEY".data = "sk-...".data ∨ "YOUR_KEY".data = "***".data)) ∧
    validateConfig ⟨"claude", [("claude", ⟨[], "m"⟩)]⟩ =
      .error (.emptyKey "claude") :=
  ⟨placeholder_key_characterization.1 "YOUR_KEY".data,
   placeholder_key_characterization.2.2 "claude" [("claude", ⟨[], "m"⟩)] "m"
     (by decide) (by decide)⟩
